import Mathlib

/-!
Verification development for the microCoin trading core.

This file gives a shallow embedding, in Lean, of the parts of the Go
sources relevant to the trading engine:

* `internal/limitbook/heap.go` and `internal/limitbook/orderbook.go`
  (price heap, book sides, `AddOrder`, `RemoveOrder`, `GetBestPrice`,
  `GetBestLevel`, `MatchOrder`),
* `internal/ledger/ledger.go` and `internal/ledger/service.go`
  (`CreateJournal`, `HoldFunds`, `ReleaseHold`, `TransferFunds`),
* the order service (`Service.CreateOrder`, `Service.processTrade`,
  `Service.validateOrderRequest`, `Service.calculateRequiredAmount`,
  `Service.holdFunds`),
* the idempotency service (`GenerateFingerprint`, `CheckIdempotency`,
  `StoreIdempotency`) and the `createOrderHandler` wrapper.

Modelling conventions:

* `shopspring/decimal` values are modelled as `ℚ` (`Money`).  The Go
  library computes add/sub/mul/min and comparisons exactly, as does `ℚ`.
* Go pointers are modelled with explicit object stores: resting book
  orders live in an `ostore : List BookOrder` and price levels in an
  `lstore : List PriceLevel`; the heap and the price-keyed map hold
  indices into `lstore`, which models the fact that in Go both alias the
  very same `*PriceLevel` objects.
* Go slices of pointers are modelled as lists of store indices.  Inside
  `MatchOrder`'s inner loop the Go code removes elements from
  `level.Orders` while ranging over it; the model mirrors Go's slice
  semantics exactly: the `range` loop iterates over the snapshot header
  (length taken at entry) reading the shared backing array, and
  `append(s[:i], s[i+1:]...)` shifts the backing array in place.  An
  out-of-range re-slice (`i+1 > len`) is modelled as a panic outcome.
* Each Go function that begins and commits its own `sql` transaction is
  a pure state transformer; an error return models a rollback of that
  transaction only.
* `uuid.New()` / `time.Now()` are environmental; fresh ids are threaded
  in as parameters and timestamps are dropped (nothing the claims
  mention reads them).
* Unbounded `for` loops are run on explicit fuel (`Nat`); a `none`
  result means the loop did not finish within the given fuel, so a
  result of `none` for every fuel is non-termination.
-/

abbrev Money : Type := ℚ

inductive Currency where
  | usd | btc | eth
deriving DecidableEq, Repr, Inhabited

inductive OrderSide where
  | buy | sell
deriving DecidableEq, Repr, Inhabited

inductive OrderType where
  | market | limit
deriving DecidableEq, Repr, Inhabited

inductive OrderStatus where
  | new | partlyFilled | filled | canceled | rejected
deriving DecidableEq, Repr, Inhabited

inductive MarketSymbol where
  | btcUsd | ethUsd
deriving DecidableEq, Repr, Inhabited

/-- Base currency of a symbol (BTC for BTC-USD, ETH for ETH-USD). -/
def MarketSymbol.base : MarketSymbol → Currency
  | .btcUsd => .btc
  | .ethUsd => .eth

/-- `limitbook.Order` (orderbook.go): an order as stored in the book. -/
structure BookOrder where
  id : Nat
  userId : Nat
  symbol : MarketSymbol
  side : OrderSide
  type : OrderType
  price : Option Money
  qty : Money
  filledQty : Money
  status : OrderStatus
deriving DecidableEq, Repr, Inhabited

/-- `limitbook.PriceLevel`: a price plus the FIFO queue of resting
orders at that price.  The queue holds indices into the book's order
store (Go: `[]*Order`). -/
structure PriceLevel where
  price : Money
  orders : List Nat
deriving DecidableEq, Repr, Inhabited

/-- `limitbook.BookSide`.  `lstore` is the store of `PriceLevel`
objects; both the price-keyed map `levels` and the heap `heap` hold
indices into it (Go: both hold `*PriceLevel` aliases of the same
objects). -/
structure BookSide where
  lstore : List PriceLevel
  levels : List (Money × Nat)
  heap : List Nat
deriving DecidableEq, Repr, Inhabited

/-- `models.Trade` restricted to the fields the matching routine sets
(`ID` and `CreatedAt` are environmental and dropped). -/
structure Trade where
  symbol : MarketSymbol
  side : OrderSide
  price : Money
  qty : Money
  takerId : Nat
  makerId : Nat
deriving DecidableEq, Repr, Inhabited

/-- `PriceHeap.Less` (heap.go): always price-ascending.  The `isBid`
flag passed to `NewPriceHeap` is discarded by the constructor, so both
sides compare with `LessThan` — a min-heap on both sides. -/
def heapLess (lstore : List PriceLevel) (hp : List Nat) (i j : Nat) : Bool :=
  decide ((lstore.getD (hp.getD i 0) default).price < (lstore.getD (hp.getD j 0) default).price)

/-- `PriceHeap.Swap`. -/
def heapSwap (hp : List Nat) (i j : Nat) : List Nat :=
  (hp.set i (hp.getD j 0)).set j (hp.getD i 0)

/-- `container/heap.up`: sift the element at position `j` up.  The Go
loop strictly decreases `j`, so `j` itself is enough fuel. -/
def heapUp (lstore : List PriceLevel) : Nat → List Nat → Nat → List Nat
  | 0, hp, _ => hp
  | fuel + 1, hp, j =>
    if j = 0 then hp
    else
      let i := (j - 1) / 2
      if heapLess lstore hp j i then heapUp lstore fuel (heapSwap hp i j) i else hp

/-- `container/heap.Push`: append, then sift up from the last slot. -/
def heapPush (lstore : List PriceLevel) (hp : List Nat) (lidx : Nat) : List Nat :=
  let hp' := hp ++ [lidx]
  heapUp lstore hp'.length hp' (hp'.length - 1)

/-- `BookSide.AddOrder`.  Takes the index of the order in the order
store; `order.Price.String()` dereferences the price, so a `none` price
is a nil-pointer panic, modelled as `none`. -/
def AddOrder (bs : BookSide) (ostore : List BookOrder) (oidx : Nat) : Option BookSide :=
  match (ostore.getD oidx default).price with
  | none => none
  | some p =>
    match bs.levels.lookup p with
    | some lidx =>
      let lvl := bs.lstore.getD lidx default
      some { bs with lstore := bs.lstore.set lidx { lvl with orders := lvl.orders ++ [oidx] } }
    | none =>
      let lidx := bs.lstore.length
      let lstore' := bs.lstore ++ [⟨p, []⟩]
      let hp' := heapPush lstore' bs.heap lidx
      let lvl : PriceLevel := ⟨p, [oidx]⟩
      some { lstore := lstore'.set lidx lvl
             levels := bs.levels ++ [(p, lidx)]
             heap := hp' }

/-- Body of `BookSide.RemoveOrder`: walk the map entries looking for
the order with the given id.  (Go iterates the map in unspecified
order; the model iterates in insertion order — for unique order ids, as
everywhere in this system, at most one entry can match, so the
iteration order is immaterial.) -/
def removeOrderGo (bs : BookSide) (ostore : List BookOrder) (targetId : Nat) :
    List (Money × Nat) → Bool × BookSide
  | [] => (false, bs)
  | (p, lidx) :: rest =>
    let lvl := bs.lstore.getD lidx default
    match lvl.orders.findIdx? (fun oidx => (ostore.getD oidx default).id = targetId) with
    | none => removeOrderGo bs ostore targetId rest
    | some i =>
      let orders' := lvl.orders.eraseIdx i
      let lstore' := bs.lstore.set lidx { lvl with orders := orders' }
      let levels' := if orders' = [] then bs.levels.eraseP (fun e => e.1 == p) else bs.levels
      (true, { bs with lstore := lstore', levels := levels' })

/-- `BookSide.RemoveOrder`.  Removes the order from its level's queue
and, if that empties the level, deletes the level from the map — but
(per the Go comment "We don't remove from heap here for simplicity")
never from the heap. -/
def RemoveOrder (bs : BookSide) (ostore : List BookOrder) (targetId : Nat) : Bool × BookSide :=
  removeOrderGo bs ostore targetId bs.levels

/-- `BookSide.GetBestPrice`: the price at the heap root, if any. -/
def GetBestPrice (bs : BookSide) : Option Money :=
  match bs.heap.head? with
  | none => none
  | some lidx => some (bs.lstore.getD lidx default).price

/-- `BookSide.GetBestLevel`, returning the heap root as an `lstore`
index (the Go function returns the `*PriceLevel` itself; the index is
its identity). -/
def GetBestLevel (bs : BookSide) : Option Nat :=
  bs.heap.head?

/-- In-place shift modelling Go's `append(s[:i], s[i+1:]...)` on the
shared backing array: positions `i .. liveLen-2` receive the element
one to their right; every other position (including the now-stale tail)
keeps its old value. -/
def shiftDown (l : List Nat) (i liveLen : Nat) : List Nat :=
  (List.range l.length).map
    (fun j => if i ≤ j ∧ j + 1 < liveLen then l.getD (j + 1) 0 else l.getD j 0)

/-- State threaded through the inner (per price level) loop of
`MatchOrder`: the level queue's backing array and live length, the
order store, and the taker's running totals. -/
structure InnerState where
  backing : List Nat
  liveLen : Nat
  ostore : List BookOrder
  takerFilled : Money
  remaining : Money
  trades : List Trade
deriving DecidableEq, Repr

/-- Outcome of the inner loop: normal exit, or a Go runtime panic from
re-slicing `level.Orders[i+1:]` with `i+1 > len(level.Orders)`. -/
inductive InnerOut where
  | ok (s : InnerState)
  | crashed
deriving DecidableEq, Repr

/-- Inner loop of `MatchOrder` (`for i, askOrder := range level.Orders`):
iterates over the snapshot taken at entry (`steps` counts down from the
snapshot length, `i` is the range index), reading the current backing
array each iteration, exactly as Go's `range` over a slice of pointers
does while the loop body removes elements in place. -/
def matchLevelLoop (sym : MarketSymbol) (takerSide : OrderSide) (takerUserId : Nat)
    (lprice : Money) : Nat → Nat → InnerState → InnerOut
  | 0, _, s => .ok s
  | steps + 1, i, s =>
    if s.remaining ≤ 0 then .ok s
    else
      let oidx := s.backing.getD i 0
      let o := s.ostore.getD oidx default
      let orem := o.qty - o.filledQty
      if orem ≤ 0 then matchLevelLoop sym takerSide takerUserId lprice steps (i + 1) s
      else
        let fill := min s.remaining orem
        let t : Trade := ⟨sym, takerSide, lprice, fill, takerUserId, o.userId⟩
        let filled' := o.filledQty + fill
        let o' := { o with filledQty := filled',
                           status := if filled' = o.qty then .filled else .partlyFilled }
        let s' : InnerState :=
          { s with ostore := s.ostore.set oidx o'
                   takerFilled := s.takerFilled + fill
                   remaining := s.remaining - fill
                   trades := s.trades ++ [t] }
        if filled' = o.qty then
          if s.liveLen ≤ i then .crashed
          else
            matchLevelLoop sym takerSide takerUserId lprice steps (i + 1)
              { s' with backing := shiftDown s.backing i s.liveLen, liveLen := s.liveLen - 1 }
        else matchLevelLoop sym takerSide takerUserId lprice steps (i + 1) s'

/-- State threaded through the outer (per price level) loop of
`MatchOrder`: the opposite side being consumed, the shared order store
and the taker's running totals. -/
structure MatchState where
  side : BookSide
  ostore : List BookOrder
  takerFilled : Money
  remaining : Money
  trades : List Trade
deriving DecidableEq, Repr

/-- Outcome of the outer matching loop. -/
inductive MatchLoopOut where
  | ok (s : MatchState)
  | crashed
deriving DecidableEq, Repr

/-- The level-price guard of `MatchOrder`:
`order.Type == LIMIT && order.Price != nil && level.Price.GreaterThan(*order.Price)`
on the buy branch, `LessThan` on the sell branch. -/
def priceBreaks (taker : BookOrder) (lp : Money) : Bool :=
  decide (taker.type = .limit) &&
    (match taker.price with
     | none => false
     | some p => if taker.side = .buy then decide (p < lp) else decide (lp < p))

/-- Outer loop of `MatchOrder` (`for remainingQty > 0`), on fuel; `none`
means the loop has not finished within `fuel` iterations.  After a level
is drained the code calls `RemoveOrder(uuid.Nil)` (id 0 here), which
removes nothing unless an order actually has the nil id. -/
def matchLoop (taker : BookOrder) : Nat → MatchState → Option MatchLoopOut
  | 0, _ => none
  | fuel + 1, s =>
    if s.remaining ≤ 0 then some (.ok s)
    else
      match GetBestLevel s.side with
      | none => some (.ok s)
      | some lidx =>
        let lvl := s.side.lstore.getD lidx default
        if priceBreaks taker lvl.price then some (.ok s)
        else
          match matchLevelLoop taker.symbol taker.side taker.userId lvl.price
              lvl.orders.length 0
              ⟨lvl.orders, lvl.orders.length, s.ostore, s.takerFilled, s.remaining, s.trades⟩ with
          | .crashed => some .crashed
          | .ok is =>
            let lvl' := { lvl with orders := is.backing.take is.liveLen }
            let side' := { s.side with lstore := s.side.lstore.set lidx lvl' }
            let side'' := if is.liveLen = 0 then (RemoveOrder side' is.ostore 0).2 else side'
            matchLoop taker fuel ⟨side'', is.ostore, is.takerFilled, is.remaining, is.trades⟩

/-- `limitbook.OrderBook` for one symbol, with the shared store of
resting order objects. -/
structure OrderBook where
  symbol : MarketSymbol
  bids : BookSide
  asks : BookSide
  ostore : List BookOrder
deriving DecidableEq, Repr, Inhabited

/-- Result of `OrderBook.MatchOrder`: the ordered trades plus the
mutated book and taker, or a runtime panic. -/
inductive MatchResult where
  | ok (trades : List Trade) (book : OrderBook) (taker : BookOrder)
  | crashed
deriving DecidableEq, Repr

/-- `OrderBook.MatchOrder` on fuel (`none` = the Go loop has not
terminated within `fuel` outer iterations). -/
def MatchOrder (fuel : Nat) (ob : OrderBook) (taker : BookOrder) : Option MatchResult :=
  let remaining := taker.qty - taker.filledQty
  let opp := if taker.side = .buy then ob.asks else ob.bids
  match matchLoop taker fuel ⟨opp, ob.ostore, taker.filledQty, remaining, []⟩ with
  | none => none
  | some .crashed => some .crashed
  | some (.ok s) =>
    let st : OrderStatus :=
      if s.takerFilled = taker.qty then .filled
      else if 0 < s.takerFilled then .partlyFilled
      else taker.status
    let taker' := { taker with filledQty := s.takerFilled, status := st }
    let ob' :=
      if taker.side = .buy then { ob with asks := s.side, ostore := s.ostore }
      else { ob with bids := s.side, ostore := s.ostore }
    some (.ok s.trades ob' taker')

/-- The trades returned by a finished, non-panicking `MatchOrder` run. -/
def tradesOf : Option MatchResult → List Trade
  | some (.ok tr _ _) => tr
  | _ => []

/-- `OrderBook.AddOrder`: allocate the order object and add it to the
side matching `order.Side` (panic propagates from `BookSide.AddOrder`
when the price is nil). -/
def bookAddOrder (ob : OrderBook) (o : BookOrder) : Option OrderBook :=
  let oidx := ob.ostore.length
  let ostore' := ob.ostore ++ [o]
  if o.side = .buy then
    (AddOrder ob.bids ostore' oidx).map (fun b => { ob with bids := b, ostore := ostore' })
  else
    (AddOrder ob.asks ostore' oidx).map (fun a => { ob with asks := a, ostore := ostore' })

/-- `models.Account`. -/
structure Account where
  id : Nat
  userId : Nat
  currency : Currency
  balanceAvailable : Money
  balanceHold : Money
deriving DecidableEq, Repr, Inhabited

/-- `models.LedgerEntry` (row id and timestamp dropped). -/
structure LedgerEntry where
  journalId : Nat
  accountId : Nat
  amount : Money
  currency : Currency
  refType : String
  refId : Nat
deriving DecidableEq, Repr, Inhabited

/-- `LedgerRepository.CreateJournal` (ledger.go): rejects an empty
journal, then sums the `Amount` of every entry — across all
currencies — into one running total and rejects unless that single
grand total is zero; accepted entries are appended to the ledger. -/
def CreateJournal (ledger : List LedgerEntry) (entries : List LedgerEntry) :
    Except String (List LedgerEntry) :=
  if entries.length = 0 then .error "journal must have at least one entry"
  else
    let total := entries.foldl (fun acc e => acc + e.amount) 0
    if total = 0 then .ok (ledger ++ entries)
    else .error "journal is not balanced"

/-- `AccountRepository.GetAccountByUserIDAndCurrency`. -/
def GetAccountByUserIDAndCurrency (accounts : List Account) (uid : Nat) (cur : Currency) :
    Except String Account :=
  match accounts.find? (fun a => decide (a.userId = uid) && decide (a.currency = cur)) with
  | some a => .ok a
  | none => .error "account not found"

/-- `AccountRepository.GetAccountByID`. -/
def GetAccountByID (accounts : List Account) (accId : Nat) : Except String Account :=
  match accounts.find? (fun a => decide (a.id = accId)) with
  | some a => .ok a
  | none => .error "account not found"

/-- `AccountRepository.UpdateAccountBalance`:
`UPDATE accounts SET balance_available = $1, balance_hold = $2 WHERE id = $3`. -/
def UpdateAccountBalance (accounts : List Account) (accId : Nat) (avail hold : Money) :
    List Account :=
  accounts.map (fun a =>
    if a.id = accId then { a with balanceAvailable := avail, balanceHold := hold } else a)

/-- `ledger.Service.HoldFunds`: its own transaction; moves `amount`
from available to hold, requiring `available ≥ amount`. -/
def HoldFunds (accounts : List Account) (uid : Nat) (cur : Currency) (amount : Money) :
    Except String (List Account) :=
  if amount ≤ 0 then .error "amount must be positive"
  else
    match GetAccountByUserIDAndCurrency accounts uid cur with
    | .error e => .error e
    | .ok account =>
      if account.balanceAvailable < amount then .error "insufficient funds"
      else
        .ok (UpdateAccountBalance accounts account.id
          (account.balanceAvailable - amount) (account.balanceHold + amount))

/-- `ledger.Service.ReleaseHold`: the inverse reclassification. -/
def ReleaseHold (accounts : List Account) (uid : Nat) (cur : Currency) (amount : Money) :
    Except String (List Account) :=
  if amount ≤ 0 then .error "amount must be positive"
  else
    match GetAccountByUserIDAndCurrency accounts uid cur with
    | .error e => .error e
    | .ok account =>
      if account.balanceHold < amount then .error "insufficient held funds"
      else
        .ok (UpdateAccountBalance accounts account.id
          (account.balanceAvailable + amount) (account.balanceHold - amount))

/-- Accounts plus ledger entries: the persistent state touched by
`TransferFunds`. -/
structure LedgerState where
  accounts : List Account
  ledger : List LedgerEntry
deriving DecidableEq, Repr

/-- `ledger.Service.TransferFunds`: its own transaction.  Checks the
payer's *available* balance only, writes a two-entry single-currency
journal, and rewrites both accounts' available balances while passing
each account's previously read hold back unchanged. -/
def TransferFunds (s : LedgerState) (fromId toId : Nat) (amount : Money) (cur : Currency)
    (refType : String) (refId jid : Nat) : Except String LedgerState :=
  if amount ≤ 0 then .error "amount must be positive"
  else
    match GetAccountByID s.accounts fromId with
    | .error e => .error e
    | .ok fromAccount =>
      match GetAccountByID s.accounts toId with
      | .error e => .error e
      | .ok toAccount =>
        if fromAccount.balanceAvailable < amount then
          .error "insufficient funds in from account"
        else
          let entries : List LedgerEntry :=
            [⟨jid, fromId, -amount, cur, refType, refId⟩,
             ⟨jid, toId, amount, cur, refType, refId⟩]
          match CreateJournal s.ledger entries with
          | .error e => .error e
          | .ok ledger' =>
            let accounts1 := UpdateAccountBalance s.accounts fromId
              (fromAccount.balanceAvailable - amount) fromAccount.balanceHold
            let accounts2 := UpdateAccountBalance accounts1 toId
              (toAccount.balanceAvailable + amount) toAccount.balanceHold
            .ok ⟨accounts2, ledger'⟩

/-- `orders.Service.processTrade`.  The surrounding transaction it
opens wraps nothing (the account reads use the pool and each
`TransferFunds` commits its own transaction), so the two transfers
commit independently: an error from the second leaves the first
committed.  Returns the state reached plus the error, if any.  `tid`
stands in for `trade.ID`. -/
def processTrade (s : LedgerState) (nextJid tid : Nat) (trade : Trade) :
    (LedgerState × Nat) × Option String :=
  match GetAccountByUserIDAndCurrency s.accounts trade.takerId .usd with
  | .error e => ((s, nextJid), some e)
  | .ok takerUSD =>
    match GetAccountByUserIDAndCurrency s.accounts trade.makerId .usd with
    | .error e => ((s, nextJid), some e)
    | .ok makerUSD =>
      match GetAccountByUserIDAndCurrency s.accounts trade.takerId trade.symbol.base with
      | .error e => ((s, nextJid), some e)
      | .ok takerBase =>
        match GetAccountByUserIDAndCurrency s.accounts trade.makerId trade.symbol.base with
        | .error e => ((s, nextJid), some e)
        | .ok makerBase =>
          let tradeValue := trade.price * trade.qty
          if trade.side = .buy then
            match TransferFunds s takerUSD.id makerUSD.id tradeValue .usd "TRADE" tid nextJid with
            | .error e => ((s, nextJid), some e)
            | .ok s1 =>
              match TransferFunds s1 makerBase.id takerBase.id trade.qty trade.symbol.base
                  "TRADE" tid (nextJid + 1) with
              | .error e => ((s1, nextJid + 1), some e)
              | .ok s2 => ((s2, nextJid + 2), none)
          else
            match TransferFunds s takerBase.id makerBase.id trade.qty trade.symbol.base
                "TRADE" tid nextJid with
            | .error e => ((s, nextJid), some e)
            | .ok s1 =>
              match TransferFunds s1 makerUSD.id takerUSD.id tradeValue .usd "TRADE" tid
                  (nextJid + 1) with
              | .error e => ((s1, nextJid + 1), some e)
              | .ok s2 => ((s2, nextJid + 2), none)

/-- `models.CreateOrderRequest` (the fields the engine reads). -/
structure CreateOrderRequest where
  symbol : MarketSymbol
  side : OrderSide
  type : OrderType
  price : Option Money
  qty : Money
deriving DecidableEq, Repr

/-- `models.Quote` (timestamp dropped). -/
structure Quote where
  symbol : MarketSymbol
  bid : Money
  ask : Money
deriving DecidableEq, Repr

/-- `models.CreateOrderResponse`. -/
structure CreateOrderResponse where
  orderId : Nat
  status : OrderStatus
  filledQty : Money
  avgFillPrice : Option Money
deriving DecidableEq, Repr

/-- `models.Order` as persisted in the `orders` table (timestamp
dropped). -/
structure OrderRow where
  id : Nat
  userId : Nat
  symbol : MarketSymbol
  side : OrderSide
  type : OrderType
  price : Option Money
  qty : Money
  filledQty : Money
  status : OrderStatus
deriving DecidableEq, Repr

/-- `OrderRepository.UpdateOrder`:
`UPDATE orders SET filled_qty = $1, status = $2 WHERE id = $3`. -/
def UpdateOrder (rows : List OrderRow) (o : OrderRow) : List OrderRow :=
  rows.map (fun r =>
    if r.id = o.id then { r with filledQty := o.filledQty, status := o.status } else r)

/-- `orders.Service.validateOrderRequest`. -/
def validateOrderRequest (req : CreateOrderRequest) : Except String Unit :=
  if req.qty ≤ 0 then .error "quantity must be positive"
  else if decide (req.type = .limit) &&
      (match req.price with
       | none => true
       | some p => decide (p ≤ 0)) then
    .error "limit orders must have a positive price"
  else if req.symbol ≠ .btcUsd ∧ req.symbol ≠ .ethUsd then .error "invalid symbol"
  else .ok ()

/-- `orders.Service.calculateRequiredAmount`.  (On the limit branch the
Go code dereferences `req.Price` unconditionally; validation has
already ruled out a nil price on every path that reaches this, so the
`none` case is modelled as the error it would be observed as.) -/
def calculateRequiredAmount (req : CreateOrderRequest) (fillPrice : Option Money) :
    Except String Money :=
  if req.type = .market then
    match fillPrice with
    | none => .error "fill price required for market orders"
    | some price => .ok (if req.side = .buy then price * req.qty else req.qty)
  else
    match req.price with
    | none => .error "nil limit price dereferenced"
    | some price => .ok (if req.side = .buy then price * req.qty else req.qty)

/-- `orders.Service.holdFunds`: pick USD for buys and the symbol's base
currency for sells, then delegate to `ledger.Service.HoldFunds`. -/
def holdFundsSvc (accounts : List Account) (uid : Nat) (req : CreateOrderRequest)
    (amount : Money) : Except String (List Account) :=
  let currency := if req.side = .buy then Currency.usd else req.symbol.base
  HoldFunds accounts uid currency amount

/-- The persistent plus in-memory state `orders.Service` operates on:
the database tables and the per-symbol in-memory books. -/
structure EngineState where
  accounts : List Account
  ledger : List LedgerEntry
  orderRows : List OrderRow
  books : List (MarketSymbol × OrderBook)
  nextJid : Nat
deriving DecidableEq, Repr

/-- Replace a symbol's book. -/
def setBook (books : List (MarketSymbol × OrderBook)) (sym : MarketSymbol) (b : OrderBook) :
    List (MarketSymbol × OrderBook) :=
  books.map (fun e => if e.1 = sym then (sym, b) else e)

/-- Accumulator of the trade-settlement loop in `CreateOrder`. -/
structure SettleAcc where
  ls : LedgerState
  nextJid : Nat
  nextTid : Nat
  totalFillQty : Money
  totalFillValue : Money
  failed : List Trade
deriving DecidableEq, Repr

/-- The trade-settlement loop of `CreateOrder`: each trade is settled
through `processTrade`; a failure is logged and skipped (`continue`),
leaving whatever that trade's transfers already committed, and the
trade's quantity is then *not* counted into the totals. -/
def processTrades : List Trade → SettleAcc → SettleAcc
  | [], acc => acc
  | t :: rest, acc =>
    match processTrade acc.ls acc.nextJid acc.nextTid t with
    | ((ls', jid'), some _) =>
      processTrades rest
        { acc with ls := ls', nextJid := jid', nextTid := acc.nextTid + 1,
                   failed := acc.failed ++ [t] }
    | ((ls', jid'), none) =>
      processTrades rest
        { acc with ls := ls', nextJid := jid', nextTid := acc.nextTid + 1,
                   totalFillQty := acc.totalFillQty + t.qty,
                   totalFillValue := acc.totalFillValue + t.price * t.qty }

/-- Outcome of `CreateOrder`: a response plus the trades whose
settlement failed and was skipped (observable via the error log), an
error return, or a runtime panic. -/
inductive CreateOrderOut where
  | ok (resp : CreateOrderResponse) (failed : List Trade)
  | err (msg : String)
  | crashed
deriving DecidableEq, Repr

/-- Final state and outcome of a `CreateOrder` run. -/
structure CreateOrderResult where
  state : EngineState
  out : CreateOrderOut
deriving DecidableEq, Repr

/-- `orders.Service.CreateOrder`.  `getQuote` models the quotes
service, `oid` the freshly generated order id and `fuel` bounds the
matching loop (`none` = matching never returned).  Every step commits
on its own: the hold, the order-row insert, each trade's transfers and
the final order update are separate transactions. -/
def CreateOrder (fuel : Nat) (getQuote : MarketSymbol → Option Quote) (oid : Nat)
    (st : EngineState) (userId : Nat) (req : CreateOrderRequest) :
    Option CreateOrderResult :=
  match validateOrderRequest req with
  | .error e => some ⟨st, .err e⟩
  | .ok _ =>
    let fillPriceRes : Except String (Option Money) :=
      if req.type = .market then
        match getQuote req.symbol with
        | none => .error "failed to get quote"
        | some q => .ok (some (if req.side = .buy then q.ask else q.bid))
      else .ok none
    match fillPriceRes with
    | .error e => some ⟨st, .err e⟩
    | .ok fillPrice =>
      match calculateRequiredAmount req fillPrice with
      | .error e => some ⟨st, .err e⟩
      | .ok requiredAmount =>
        match holdFundsSvc st.accounts userId req requiredAmount with
        | .error e => some ⟨st, .err e⟩
        | .ok accounts1 =>
          let row : OrderRow :=
            ⟨oid, userId, req.symbol, req.side, req.type, req.price, req.qty, 0, .new⟩
          let rows1 := st.orderRows ++ [row]
          let bookOrder : BookOrder :=
            ⟨oid, userId, req.symbol, req.side, req.type, req.price, req.qty, 0, .new⟩
          let book := ((st.books.lookup req.symbol).getD default)
          match MatchOrder fuel book bookOrder with
          | none => none
          | some .crashed =>
            some ⟨{ st with accounts := accounts1, orderRows := rows1 }, .crashed⟩
          | some (.ok trades book' taker') =>
            let books1 := setBook st.books req.symbol book'
            let sa := processTrades trades ⟨⟨accounts1, st.ledger⟩, st.nextJid, 0, 0, 0, []⟩
            let row' :=
              { row with
                filledQty := sa.totalFillQty,
                status :=
                  if sa.totalFillQty = req.qty then .filled
                  else if 0 < sa.totalFillQty then .partlyFilled
                  else row.status }
            let rows2 := UpdateOrder rows1 row'
            let st2 : EngineState := ⟨sa.ls.accounts, sa.ls.ledger, rows2, books1, sa.nextJid⟩
            let resp : CreateOrderResponse :=
              ⟨oid, row'.status, sa.totalFillQty,
               if 0 < sa.totalFillQty then some (sa.totalFillValue / sa.totalFillQty) else none⟩
            if row'.status = .new ∨ row'.status = .partlyFilled then
              match bookAddOrder ((books1.lookup req.symbol).getD default) taker' with
              | none => some ⟨st2, .crashed⟩
              | some book2 =>
                some ⟨{ st2 with books := setBook books1 req.symbol book2 }, .ok resp sa.failed⟩
            else some ⟨st2, .ok resp sa.failed⟩

/-- 32-bit right rotation on `Nat`. -/
def rotr32 (n x : Nat) : Nat := ((x >>> n) ||| (x <<< (32 - n))) % 4294967296

/-- SHA-256 `Ch`. -/
def shaCh (e f g : Nat) : Nat := (e &&& f) ^^^ ((e ^^^ 0xffffffff) &&& g)

/-- SHA-256 `Maj`. -/
def shaMaj (a b c : Nat) : Nat := (a &&& b) ^^^ (a &&& c) ^^^ (b &&& c)

/-- SHA-256 `Σ0`. -/
def bsig0 (x : Nat) : Nat := rotr32 2 x ^^^ rotr32 13 x ^^^ rotr32 22 x

/-- SHA-256 `Σ1`. -/
def bsig1 (x : Nat) : Nat := rotr32 6 x ^^^ rotr32 11 x ^^^ rotr32 25 x

/-- SHA-256 `σ0`. -/
def ssig0 (x : Nat) : Nat := rotr32 7 x ^^^ rotr32 18 x ^^^ (x >>> 3)

/-- SHA-256 `σ1`. -/
def ssig1 (x : Nat) : Nat := rotr32 17 x ^^^ rotr32 19 x ^^^ (x >>> 10)

/-- The 64 SHA-256 round constants. -/
def shaK : List Nat :=
   [ 1116352408, 1899447441, 3049323471, 3921009573, 961987163, 1508970993,
    2453635748, 2870763221, 3624381080, 310598401, 607225278, 1426881987,
    1925078388, 2162078206, 2614888103, 3248222580, 3835390401, 4022224774,
    264347078, 604807628, 770255983, 1249150122, 1555081692, 1996064986,
    2554220882, 2821834349, 2952996808, 3210313671, 3336571891, 3584528711,
    113926993, 338241895, 666307205, 773529912, 1294757372, 1396182291,
    1695183700, 1986661051, 2177026350, 2456956037, 2730485921, 2820302411,
    3259730800, 3345764771, 3516065817, 3600352804, 4094571909, 275423344,
    430227734, 506948616, 659060556, 883997877, 958139571, 1322822218,
    1537002063, 1747873779, 1955562222, 2024104815, 2227730452, 2361852424,
    2428436474, 2756734187, 3204031479, 3329325298]

/-- SHA-256 initial hash values (decimal). -/
def shaH0 : List Nat :=
   [ 1779033703, 3144134277, 1013904242, 2773480762, 1359893119, 2600822924,
    528734635, 1541459225]

/-- `n` big-endian bytes of `v`. -/
def beBytes : Nat → Nat → List Nat
  | 0, _ => []
  | n + 1, v => beBytes n (v / 256) ++ [v % 256]

/-- SHA-256 padding: `0x80`, zeros, then the 64-bit big-endian bit
length, to a multiple of 64 bytes. -/
def sha256Pad (msg : List Nat) : List Nat :=
  let l := msg.length
  let k := (119 - l % 64) % 64
  msg ++ [0x80] ++ List.replicate k 0 ++ beBytes 8 (8 * l)

/-- Big-endian 32-bit words of a byte list. -/
def toWords : List Nat → List Nat
  | b0 :: b1 :: b2 :: b3 :: rest => (((b0 * 256 + b1) * 256 + b2) * 256 + b3) :: toWords rest
  | _ => []

/-- Extend the 16-word message schedule by `n` further words. -/
def extendSched : Nat → List Nat → List Nat
  | 0, w => w
  | n + 1, w =>
    let t := w.length
    let next := (ssig1 (w.getD (t - 2) 0) + w.getD (t - 7) 0 + ssig0 (w.getD (t - 15) 0) +
      w.getD (t - 16) 0) % 4294967296
    extendSched n (w ++ [next])

/-- SHA-256 working variables a–h. -/
structure Sha8 where
  a : Nat
  b : Nat
  c : Nat
  d : Nat
  e : Nat
  f : Nat
  g : Nat
  h : Nat
deriving DecidableEq, Repr

/-- The 64 compression rounds. -/
def shaRounds : Nat → Nat → List Nat → Sha8 → Sha8
  | 0, _, _, st => st
  | n + 1, i, w, st =>
    let t1 := (st.h + bsig1 st.e + shaCh st.e st.f st.g + shaK.getD i 0 + w.getD i 0) %
      4294967296
    let t2 := (bsig0 st.a + shaMaj st.a st.b st.c) % 4294967296
    shaRounds n (i + 1) w ⟨(t1 + t2) % 4294967296, st.a, st.b, st.c, (st.d + t1) % 4294967296,
      st.e, st.f, st.g⟩

/-- Compress one 64-byte block into the running hash. -/
def shaCompress (hs : List Nat) (block : List Nat) : List Nat :=
  let w := extendSched 48 (toWords block)
  let st := shaRounds 64 0 w
    ⟨hs.getD 0 0, hs.getD 1 0, hs.getD 2 0, hs.getD 3 0, hs.getD 4 0, hs.getD 5 0,
     hs.getD 6 0, hs.getD 7 0⟩
  [(hs.getD 0 0 + st.a) % 4294967296, (hs.getD 1 0 + st.b) % 4294967296,
   (hs.getD 2 0 + st.c) % 4294967296, (hs.getD 3 0 + st.d) % 4294967296,
   (hs.getD 4 0 + st.e) % 4294967296, (hs.getD 5 0 + st.f) % 4294967296,
   (hs.getD 6 0 + st.g) % 4294967296, (hs.getD 7 0 + st.h) % 4294967296]

/-- Fold the compression over all 64-byte blocks (fuel-bounded by the
message length, which dominates the block count). -/
def shaBlocks : Nat → List Nat → List Nat → List Nat
  | 0, hs, _ => hs
  | n + 1, hs, msg =>
    match msg with
    | [] => hs
    | _ => shaBlocks n (shaCompress hs (msg.take 64)) (msg.drop 64)

/-- `crypto/sha256.Sum256` over a byte list. -/
def sha256 (msg : List Nat) : List Nat :=
  let padded := sha256Pad msg
  let hs := shaBlocks (padded.length + 1) shaH0 padded
  hs.foldr (fun wd acc => beBytes 4 wd ++ acc) []

/-- Lower-case hex digit: index `n` of hex.go's digit table
"0123456789abcdef" (codepoint arithmetic avoids spelling the table). -/
def hexDigit (n : Nat) : Char :=
  Char.ofNat (if n < 10 then 48 + n else 87 + n)

/-- `encoding/hex.EncodeToString`. -/
def hexEncode (bytes : List Nat) : List Char :=
  bytes.foldr (fun b acc => hexDigit (b / 16) :: hexDigit (b % 16) :: acc) []

/-- ASCII bytes of a Lean string (all strings involved are ASCII, where
UTF-8 and code points coincide). -/
def asciiBytes (s : String) : List Nat := s.data.map Char.toNat

/-- `idempotency.Service.GenerateFingerprint`: concatenate the body
with `key + ":" + value` for the `Authorization` and `Content-Type`
entries *in map iteration order* (`headerIter` is the order Go's
runtime happened to iterate the header map in), hash with SHA-256 and
hex-encode. -/
def GenerateFingerprint (body : List Nat) (headerIter : List (String × String)) : List Char :=
  let data := headerIter.foldl
    (fun d kv =>
      if kv.1 = "Authorization" ∨ kv.1 = "Content-Type" then
        d ++ asciiBytes kv.1 ++ asciiBytes ":" ++ asciiBytes kv.2
      else d)
    body
  hexEncode (sha256 data)

/-- `models.IdempotencyKey` (row id and timestamp dropped). -/
structure IdempotencyKey where
  userId : Nat
  idemKey : String
  requestFingerprint : List Char
  responseCode : Nat
  responseBody : List Nat
deriving DecidableEq, Repr

/-- `Repository.GetIdempotencyKey`: lookup by `(user_id, idem_key)`
(unique in the schema); absence is not an error. -/
def GetIdempotencyKey (store : List IdempotencyKey) (uid : Nat) (key : String) :
    Option IdempotencyKey :=
  store.find? (fun r => decide (r.userId = uid) && decide (r.idemKey = key))

/-- `idempotency.Service.CheckIdempotency`: `ok none` for a new
request, `ok (some r)` when the stored fingerprint matches, and an
error when the key exists with a different fingerprint. -/
def CheckIdempotency (store : List IdempotencyKey) (uid : Nat) (key : String)
    (fingerprint : List Char) : Except String (Option IdempotencyKey) :=
  match GetIdempotencyKey store uid key with
  | none => .ok none
  | some idemKey =>
    if idemKey.requestFingerprint ≠ fingerprint then .error "idempotency key mismatch"
    else .ok (some idemKey)

/-- `idempotency.Service.StoreIdempotency` /
`Repository.CreateIdempotencyKey`: insert the record. -/
def StoreIdempotency (store : List IdempotencyKey) (uid : Nat) (key : String)
    (fingerprint : List Char) (responseCode : Nat) (responseBody : List Nat) :
    List IdempotencyKey :=
  store ++ [⟨uid, key, fingerprint, responseCode, responseBody⟩]

/-- An HTTP response as the handler writes it. -/
structure HandlerResponse where
  code : Nat
  body : List Nat
deriving DecidableEq, Repr

/-- The state visible to `createOrderHandler`: the idempotency table
plus the engine state. -/
structure HandlerState where
  idem : List IdempotencyKey
  engine : EngineState
deriving DecidableEq, Repr

/-- `createOrderHandler` (cmd/server): the idempotency wrapper around
order creation.  `op` is the wrapped operation — parse the body, run
`Service.CreateOrder` and marshal the response (an error yields the
`http.Error` 500 path, after which nothing is stored).  On a cached key
the stored response is replayed without running `op`; on a fingerprint
mismatch a 409 is returned without running `op`; on a fresh key `op`
runs and its response is stored under the key with code 200. -/
def createOrderHandler (op : EngineState → EngineState × Except String (List Nat))
    (hs : HandlerState) (uid : Nat) (idemKey : String) (body : List Nat)
    (headerIter : List (String × String)) : HandlerResponse × HandlerState :=
  if idemKey = "" then (⟨400, asciiBytes "Idempotency-Key header required"⟩, hs)
  else
    let fingerprint := GenerateFingerprint body headerIter
    match CheckIdempotency hs.idem uid idemKey fingerprint with
    | .error _ => (⟨409, asciiBytes "Idempotency key mismatch"⟩, hs)
    | .ok (some existingKey) => (⟨existingKey.responseCode, existingKey.responseBody⟩, hs)
    | .ok none =>
      match op hs.engine with
      | (engine', .error e) => (⟨500, asciiBytes e⟩, { hs with engine := engine' })
      | (engine', .ok responseBody) =>
        (⟨200, responseBody⟩,
         ⟨StoreIdempotency hs.idem uid idemKey fingerprint 200 responseBody, engine'⟩)

/-- The static (never mutated by matching) part of a book order:
everything except `filledQty` and `status`. -/
def staticPart (o : BookOrder) : BookOrder := { o with filledQty := 0, status := .new }

/-- Well-formedness of a book side: every queue entry indexes an
existing order whose price is exactly its level's price.  This is what
`AddOrder` establishes (the level is keyed by the order's price). -/
def WFSide (side : BookSide) (ostore : List BookOrder) : Prop :=
  ∀ lvl ∈ side.lstore, ∀ oidx ∈ lvl.orders,
    oidx < ostore.length ∧ (ostore.getD oidx default).price = some lvl.price

/-- `o` is one of the orders resting on `side` (reachable from some
level's queue). -/
def RestingIn (side : BookSide) (ostore : List BookOrder) (o : BookOrder) : Prop :=
  ∃ lvl ∈ side.lstore, ∃ oidx ∈ lvl.orders, ostore.getD oidx default = o

/-- The opposite side `MatchOrder` consumes. -/
def oppositeSide (ob : OrderBook) (taker : BookOrder) : BookSide :=
  if taker.side = .buy then ob.asks else ob.bids

/-- Projection of the account list that forgets available balances:
ids, owners, currencies and *hold* balances. -/
def holdView (accounts : List Account) : List (Nat × Nat × Currency × Money) :=
  accounts.map (fun a => (a.id, a.userId, a.currency, a.balanceHold))

/-- The `Authorization` / `Content-Type` entries of a header iteration,
in iteration order — the only part of the headers
`GenerateFingerprint` reads. -/
def criticalHeaders (iter : List (String × String)) : List (String × String) :=
  iter.filter (fun kv => decide (kv.1 = "Authorization" ∨ kv.1 = "Content-Type"))

/-- C1 counterexample: taker user 1 with exactly the USD the hold will
consume; maker user 2 resting one 5 BTC ask at 100 (all of the maker's
BTC already on hold from their own sell order). -/
def c1Accounts : List Account :=
  [⟨1, 1, .usd, 500, 0⟩, ⟨2, 1, .btc, 0, 0⟩, ⟨3, 2, .usd, 0, 0⟩, ⟨4, 2, .btc, 0, 5⟩]

/-- C1 counterexample: the book with the maker's resting ask. -/
def c1Book : OrderBook :=
  ⟨.btcUsd, ⟨[], [], []⟩, ⟨[⟨100, [0]⟩], [(100, 0)], [0]⟩,
   [⟨7, 2, .btcUsd, .sell, .limit, some 100, 5, 0, .new⟩]⟩

/-- C1 counterexample: initial engine state. -/
def c1St : EngineState := ⟨c1Accounts, [], [], [(.btcUsd, c1Book)], 0⟩

/-- C1 counterexample: limit buy crossing the resting ask in full. -/
def c1Req : CreateOrderRequest := ⟨.btcUsd, .buy, .limit, some 100, 5⟩

/-- C1 counterexample: the full submission run. -/
def c1Run : Option CreateOrderResult := CreateOrder 3 (fun _ => none) 8 c1St 1 c1Req

/-- C1 witness input: a request that fails validation. -/
def c1ReqW : CreateOrderRequest := ⟨.btcUsd, .buy, .limit, some 100, 0⟩

/-- C2 failing input: a single ask level at 100 holding one 1-unit
order. -/
def c2Book : OrderBook :=
  ⟨.btcUsd, ⟨[], [], []⟩, ⟨[⟨100, [0]⟩], [(100, 0)], [0]⟩,
   [⟨1, 2, .btcUsd, .sell, .limit, some 100, 1, 0, .new⟩]⟩

/-- C2 failing input: a market buy for more than the whole book. -/
def c2Taker : BookOrder := ⟨2, 3, .btcUsd, .buy, .market, none, 2, 0, .new⟩

/-- C2: the loop state after the first outer iteration — the ask is
fully filled and its level drained, but `RemoveOrder(uuid.Nil)` has
removed nothing, so the empty level is still the heap root while one
unit of demand remains. -/
def c2s1 : MatchState :=
  ⟨⟨[⟨100, []⟩], [(100, 0)], [0]⟩,
   [⟨1, 2, .btcUsd, .sell, .limit, some 100, 1, 1, .filled⟩], 1, 1,
   [⟨.btcUsd, .buy, 100, 1, 3, 2⟩]⟩

/-- C3 failing input: two resting bids, at 10 and at 20. -/
def c3Orders : List BookOrder :=
  [⟨1, 1, .btcUsd, .buy, .limit, some 10, 1, 0, .new⟩,
   ⟨2, 2, .btcUsd, .buy, .limit, some 20, 1, 0, .new⟩]

/-- C3 failing input: the bid side built by inserting the 10 bid and
then the 20 bid through `AddOrder`, as `NewOrderBook` + `AddOrder`
would. -/
def c3Bids : Option BookSide :=
  (AddOrder ⟨[], [], []⟩ c3Orders 0).bind (fun bs => AddOrder bs c3Orders 1)

/-- C4 counterexample: both transfer legs can pay from available, while
both parties also carry holds from the orders being filled (taker's 500
USD, maker's 5 BTC). -/
def c4Accounts : List Account :=
  [⟨1, 1, .usd, 1000, 500⟩, ⟨2, 1, .btc, 0, 0⟩, ⟨3, 2, .usd, 0, 0⟩, ⟨4, 2, .btc, 5, 5⟩]

/-- C4 counterexample: the emitted trade — taker 1 buys 5 BTC at 100
from maker 2. -/
def c4Trade : Trade := ⟨.btcUsd, .buy, 100, 5, 1, 2⟩

/-- C5 counterexample: +5 USD and −5 BTC; zero grand total, both
per-currency sums non-zero. -/
def c5Entries : List LedgerEntry :=
  [⟨1, 1, 5, .usd, "TRADE", 1⟩, ⟨1, 2, -5, .btc, "TRADE", 1⟩]

/-- Per-currency signed sum of a journal. -/
def currencySum (entries : List LedgerEntry) (cur : Currency) : Money :=
  entries.foldl (fun acc e => if e.currency = cur then acc + e.amount else acc) 0

/-- C6 failing input: a single ask level at 100 whose FIFO queue holds
the 1-unit orders of users 11, 12, 13 in that (time) order, built by
three `AddOrder` insertions. -/
def c6Book : OrderBook :=
  ((bookAddOrder ⟨.btcUsd, ⟨[], [], []⟩, ⟨[], [], []⟩, []⟩
      ⟨1, 11, .btcUsd, .sell, .limit, some 100, 1, 0, .new⟩).bind
    (fun b => bookAddOrder b ⟨2, 12, .btcUsd, .sell, .limit, some 100, 1, 0, .new⟩)).bind
    (fun b => bookAddOrder b ⟨3, 13, .btcUsd, .sell, .limit, some 100, 1, 0, .new⟩)
    |>.getD default

/-- C6 failing input: a market buy for 2 units against that level. -/
def c6Taker : BookOrder := ⟨9, 99, .btcUsd, .buy, .market, none, 2, 0, .new⟩

/-- C7 failing input: user with funds, and an empty BTC-USD book. -/
def c7St : EngineState :=
  ⟨[⟨1, 1, .usd, 100, 0⟩, ⟨2, 1, .btc, 0, 0⟩], [], [],
   [(.btcUsd, ⟨.btcUsd, ⟨[], [], []⟩, ⟨[], [], []⟩, []⟩)], 0⟩

/-- C7 failing input: a market buy with nothing on the ask side. -/
def c7Req : CreateOrderRequest := ⟨.btcUsd, .buy, .market, none, 1⟩

/-- C8 witness input: one resting 2-unit ask of user 5 at 100. -/
def c8Book : OrderBook :=
  ⟨.btcUsd, ⟨[], [], []⟩, ⟨[⟨100, [0]⟩], [(100, 0)], [0]⟩,
   [⟨1, 5, .btcUsd, .sell, .limit, some 100, 2, 0, .new⟩]⟩

/-- C8 witness input: a limit buy at 120 for 1 unit. -/
def c8Taker : BookOrder := ⟨2, 6, .btcUsd, .buy, .limit, some 120, 1, 0, .new⟩

/-- C9 witness input: a stored idempotency record whose fingerprint is
the one the handler recomputes for body `[66]` and no headers. -/
def c9Rec : IdempotencyKey := ⟨1, "k", GenerateFingerprint [66] [], 201, [79, 75]⟩

/-- C9 witness input: handler state holding just that record. -/
def c9Hs : HandlerState := ⟨[c9Rec], ⟨[], [], [], [], 0⟩⟩

/-- C10 counterexample: the same two critical headers in the two map
iteration orders Go may produce. -/
def c10It1 : List (String × String) := [("Authorization", "a"), ("Content-Type", "b")]

/-- C10 counterexample: the opposite iteration order of the same map. -/
def c10It2 : List (String × String) := [("Content-Type", "b"), ("Authorization", "a")]

/-- C10 witness input: iterations differing only in an irrelevant
header. -/
def c10It3 : List (String × String) := [("Authorization", "a"), ("X-Trace", "z")]

/-- C10 witness input: same critical subsequence as `c10It3`, other
headers changed and reordered. -/
def c10It4 : List (String × String) := [("X-Other", "q"), ("Authorization", "a")]

/-- The two C8 properties of an emitted trade: its price and maker
are those of an order resting on the matched side, and the price obeys
the taker's limit. -/
def GoodTrade (sideZ : BookSide) (ostoreZ : List BookOrder) (taker : BookOrder)
    (t : Trade) : Prop :=
  (∃ o, RestingIn sideZ ostoreZ o ∧ o.price = some t.price ∧ o.userId = t.makerId) ∧
  (∀ p, taker.type = .limit → taker.price = some p →
    (taker.side = .buy → t.price ≤ p) ∧ (taker.side = .sell → p ≤ t.price))

/-- `bs` refines `sZ`: positionally the same levels with the same
prices, each queue a sub-collection of the original queue.  Matching
only ever drains queues, so every mid-match side refines the starting
side. -/
def SideRefines (sZ bs : BookSide) : Prop :=
  ∀ k lvl, bs.lstore.get? k = some lvl →
    ∃ lvlZ, sZ.lstore.get? k = some lvlZ ∧ lvl.price = lvlZ.price ∧
      ∀ x ∈ lvl.orders, x ∈ lvlZ.orders

set_option maxRecDepth 40000

/-- Decidable equality for `Except` results, used to evaluate the
model on concrete inputs. -/
instance {e a : Type} [DecidableEq e] [DecidableEq a] : DecidableEq (Except e a) := fun x y =>
  match x, y with
  | .error e1, .error e2 =>
    if h : e1 = e2 then .isTrue (by rw [h]) else .isFalse (fun hc => h (Except.error.inj hc))
  | .ok a1, .ok a2 =>
    if h : a1 = a2 then .isTrue (by rw [h]) else .isFalse (fun hc => h (Except.ok.inj hc))
  | .error _, .ok _ => .isFalse (fun hc => Except.noConfusion hc)
  | .ok _, .error _ => .isFalse (fun hc => Except.noConfusion hc)

/-- Claim C3 (counter-evaluation): on a non-empty bid side holding
levels at 10 and 20, `GetBestPrice` returns 10 — the *minimum* — even
though a non-empty level at the maximum price 20 is present.
`NewPriceHeap` discards its `isBid` flag and `PriceHeap.Less` always
orders by ascending price, so the bid heap is a min-heap and the claim
fails for bids (asks, needing the minimum, coincide with it). -/
theorem GetBestPrice_bids_returns_min :
    c3Bids.map GetBestPrice = some (some 10) ∧
    (∃ lvl ∈ (c3Bids.getD default).lstore, lvl.price = 20 ∧ lvl.orders ≠ []) ∧
    (10 : Money) < 20 := by
  with_unfolding_all decide

/-- Claim C5 (counterexample): `CreateJournal` accepts the journal
`[+5 USD, −5 BTC]`, whose grand total is zero while both per-currency
sums are non-zero — the claim says such a journal is rejected. -/
theorem CreateJournal_accepts_cross_currency :
    CreateJournal [] c5Entries = .ok c5Entries ∧
    currencySum c5Entries .usd ≠ 0 ∧ currencySum c5Entries .btc ≠ 0 := by
  with_unfolding_all decide

/-- Claim C5 (amended): `CreateJournal` accepts a journal exactly when
it is non-empty and the *single* signed sum of all its amounts, taken
across all currencies together, is zero; per-currency sums are never
examined. -/
theorem CreateJournal_ok_iff_grand_total_zero :
    ∀ (ledger entries : List LedgerEntry),
      CreateJournal ledger entries = .ok (ledger ++ entries) ↔
        entries ≠ [] ∧ entries.foldl (fun acc e => acc + e.amount) 0 = 0 := by
  intro ledger entries
  simp only [CreateJournal]
  split
  · rename_i h0
    simp [List.length_eq_zero.mp h0]
  · rename_i h0
    split
    · rename_i h1
      constructor
      · intro _
        exact ⟨fun he => h0 (by simp [he]), h1⟩
      · intro _
        rfl
    · rename_i h1
      constructor
      · intro h; exact absurd h (by simp)
      · rintro ⟨_, h⟩; exact absurd h h1

/-- Claim C6 (counter-evaluation): with a single ask level whose FIFO
queue is users 11, 12, 13 (each 1 unit), a market buy for 2 units fills
user 11 and then user *13*, skipping 12: removing the filled head order
inside `for i, askOrder := range level.Orders` shifts the slice under
the live range loop, so index 1 of the snapshot now reads the order
that was third.  Price-time (FIFO) priority demands 11 then 12. -/
theorem MatchOrder_skips_fifo_successor :
    (tradesOf (MatchOrder 3 c6Book c6Taker)).map Trade.makerId = [11, 13] ∧
    (MatchOrder 3 c6Book c6Taker).isSome = true ∧
    (c6Book.asks.lstore.getD 0 default).orders.map
      (fun i => (c6Book.ostore.getD i default).userId) = [11, 12, 13] := by
  with_unfolding_all decide

/-- Claim C7 (counter-evaluation): a MARKET buy against an empty ask
side matches nothing, keeps status NEW, and `CreateOrder` — whose
re-insertion test looks only at the status, never at the order type —
then passes the market order to `OrderBook.AddOrder`, which
dereferences its nil price: the run ends in the modelled panic instead
of leaving the market order off the book. -/
theorem CreateOrder_market_reinserted_crashes :
    (CreateOrder 3 (fun _ => some ⟨.btcUsd, 9, 10⟩) 5 c7St 1 c7Req).map
      CreateOrderResult.out = some .crashed ∧ c7Req.type = .market := by
  with_unfolding_all decide

/-- Claim C1 (counterexample): user 1 holds exactly the 500 USD the
hold consumes; the matched 5-unit trade then fails to settle
(`TransferFunds` finds 0 available) and is skipped, yet the run returns
success with the hold and order row committed: the final account state
differs from the initial one although the submission did not complete
(its only trade is in the failed list and no funds moved). -/
theorem CreateOrder_not_atomic :
    c1Run.map CreateOrderResult.out =
      some (.ok ⟨8, .new, 0, none⟩ [⟨.btcUsd, .buy, 100, 5, 1, 2⟩]) ∧
    c1Run.map (fun r => r.state.accounts) =
      some [⟨1, 1, .usd, 0, 500⟩, ⟨2, 1, .btc, 0, 0⟩, ⟨3, 2, .usd, 0, 0⟩,
            ⟨4, 2, .btc, 0, 5⟩] ∧
    some c1Accounts ≠ c1Run.map (fun r => r.state.accounts) := by
  with_unfolding_all decide

/-- Claim C1 (amended): the only rollback-safe failures are the ones
*before* any mutation — request validation, market-order quoting, the
nil-price guard and the fund hold.  Whenever `CreateOrder` returns an
error, the persistent state is exactly the initial one; any failure
after the hold commits (settlement, in particular) is skipped rather
than surfaced, leaving the hold, the order row and any already-settled
trades in place (see the counterexample). -/
theorem CreateOrder_error_leaves_state :
    ∀ (fuel : Nat) (getQuote : MarketSymbol → Option Quote) (oid : Nat) (st : EngineState)
      (userId : Nat) (req : CreateOrderRequest) (st' : EngineState) (m : String),
      CreateOrder fuel getQuote oid st userId req = some ⟨st', .err m⟩ → st' = st := by
  intro fuel getQuote oid st userId req st' m h
  simp only [CreateOrder] at h
  repeat' split at h
  all_goals simp_all

/-- Witness for `CreateOrder_error_leaves_state` at a concrete failing
validation (qty 0): the error is returned and the state is unchanged. -/
theorem CreateOrder_error_leaves_state_witness :
    CreateOrder 1 (fun _ => none) 1 c1St 1 c1ReqW =
      some ⟨c1St, .err "quantity must be positive"⟩ ∧ c1St = c1St :=
  ⟨by with_unfolding_all decide,
   CreateOrder_error_leaves_state 1 (fun _ => none) 1 c1St 1 c1ReqW c1St
     "quantity must be positive" (by with_unfolding_all decide)⟩

/-- After the first outer iteration drains the only ask level, every
further iteration of the matching loop is a no-op returning to the very
same state: the emptied level is still the heap root, its queue is
empty, and `RemoveOrder(uuid.Nil)` removes nothing. -/
theorem c2_loop_fixed : ∀ f, matchLoop c2Taker f c2s1 = none := by
  intro f
  induction f with
  | zero => rfl
  | succ n ih =>
    have step : matchLoop c2Taker (n + 1) c2s1 = matchLoop c2Taker n c2s1 := by
      with_unfolding_all rfl
    rw [step]
    exact ih

/-- The first iteration of the matching loop on the C2 input fills the
single resting ask and reaches the drained-level state `c2s1`. -/
theorem c2_loop_start : ∀ f, matchLoop c2Taker (f + 1)
    ⟨c2Book.asks, c2Book.ostore, c2Taker.filledQty, c2Taker.qty - c2Taker.filledQty, []⟩ =
    matchLoop c2Taker f c2s1 := by
  intro f
  with_unfolding_all rfl

/-- Claim C2 (refutation of termination): with one resting 1-unit ask
and an incoming market buy for 2 units, `MatchOrder` never returns: the
drained level is "removed" with `RemoveOrder(uuid.Nil)`, which matches
no order, so the level survives in the heap and the walk spins on it
for ever instead of stopping when the opposite side is exhausted. -/
theorem MatchOrder_diverges_on_drained_level :
    ∀ fuel, MatchOrder fuel c2Book c2Taker = none := by
  intro fuel
  cases fuel with
  | zero => rfl
  | succ f =>
    have h : matchLoop c2Taker (f + 1)
        ⟨c2Book.asks, c2Book.ostore, c2Taker.filledQty, c2Taker.qty - c2Taker.filledQty, []⟩ =
        none := (c2_loop_start f).trans (c2_loop_fixed f)
    simp only [MatchOrder]
    rw [show (if c2Taker.side = OrderSide.buy then c2Book.asks else c2Book.bids) =
      c2Book.asks from rfl] at *
    rw [h]

/-- `UpdateAccountBalance` keeps `holdView` whenever the hold it writes
equals the hold every targeted row already has. -/
theorem holdView_update (accounts : List Account) (accId : Nat) (avail h : Money)
    (hh : ∀ a ∈ accounts, a.id = accId → a.balanceHold = h) :
    holdView (UpdateAccountBalance accounts accId avail h) = holdView accounts := by
  unfold holdView UpdateAccountBalance
  rw [List.map_map]
  apply List.map_congr_left
  intro a ha
  by_cases hid : a.id = accId
  · simp only [Function.comp_apply, if_pos hid]
    simp [hid, hh a ha hid]
  · simp [Function.comp_apply, if_neg hid]

/-- With unique account ids, the account `GetAccountByID` returns
carries the hold of every row with that id (there is exactly one). -/
theorem getAccountByID_hold (accounts : List Account) (accId : Nat) (acc : Account)
    (hnd : (accounts.map Account.id).Nodup)
    (hfind : GetAccountByID accounts accId = .ok acc) :
    ∀ a ∈ accounts, a.id = accId → a.balanceHold = acc.balanceHold := by
  induction accounts with
  | nil => simp [GetAccountByID] at hfind
  | cons b rest ih =>
    simp only [List.map_cons, List.nodup_cons] at hnd
    by_cases hb : b.id = accId
    · have hacc : acc = b := by
        simp [GetAccountByID, List.find?_cons, hb] at hfind
        exact hfind.symm
      intro a ha hid
      rcases List.mem_cons.mp ha with rfl | hmem
      · rw [hacc]
      · exfalso
        apply hnd.1
        rw [hb, ← hid]
        exact List.mem_map_of_mem Account.id hmem
    · have hfind' : GetAccountByID rest accId = .ok acc := by
        simpa [GetAccountByID, List.find?_cons, hb] using hfind
      intro a ha hid
      rcases List.mem_cons.mp ha with rfl | hmem
      · exact absurd hid hb
      · exact ih hnd.2 hfind' a hmem hid

/-- Projecting ids out of `holdView`. -/
theorem holdView_ids (l : List Account) : (holdView l).map Prod.fst = l.map Account.id := by
  simp [holdView, List.map_map]

/-- `TransferFunds` never changes any account's hold (nor any account's
identity): it rewrites available balances only, writing back the holds
it read. -/
theorem TransferFunds_preserves_holds (s : LedgerState) (fromId toId : Nat) (amount : Money)
    (cur : Currency) (refType : String) (refId jid : Nat) (s' : LedgerState)
    (hnd : (s.accounts.map Account.id).Nodup)
    (h : TransferFunds s fromId toId amount cur refType refId jid = .ok s') :
    holdView s'.accounts = holdView s.accounts := by
  simp only [TransferFunds] at h
  split at h
  · exact absurd h (by simp)
  split at h
  · exact absurd h (by simp)
  rename_i fromAccount hfrom
  split at h
  · exact absurd h (by simp)
  rename_i toAccount hto
  split at h
  · exact absurd h (by simp)
  split at h
  · exact absurd h (by simp)
  rename_i ledger' hledger
  have hs' : s' = ⟨UpdateAccountBalance
      (UpdateAccountBalance s.accounts fromId
        (fromAccount.balanceAvailable - amount) fromAccount.balanceHold) toId
      (toAccount.balanceAvailable + amount) toAccount.balanceHold, ledger'⟩ := by
    injection h with h2
    exact h2.symm
  subst hs'
  have hh1 := getAccountByID_hold s.accounts fromId fromAccount hnd hfrom
  have step1 : holdView (UpdateAccountBalance s.accounts fromId
      (fromAccount.balanceAvailable - amount) fromAccount.balanceHold) =
      holdView s.accounts := holdView_update _ _ _ _ hh1
  have hh2 := getAccountByID_hold s.accounts toId toAccount hnd hto
  have hh2' : ∀ a ∈ UpdateAccountBalance s.accounts fromId
      (fromAccount.balanceAvailable - amount) fromAccount.balanceHold,
      a.id = toId → a.balanceHold = toAccount.balanceHold := by
    intro a ha hid
    rcases List.mem_map.mp ha with ⟨b, hb, rfl⟩
    by_cases hbid : b.id = fromId
    · simp only [if_pos hbid] at hid ⊢
      exact (hh1 b hb hbid).symm.trans (hh2 b hb (by simpa [hbid] using hid)) |>.symm ▸
        (hh1 b hb hbid).symm.trans (hh2 b hb (by simpa [hbid] using hid))
    · simp only [if_neg hbid] at hid ⊢
      exact hh2 b hb hid
  have step2 : holdView (UpdateAccountBalance (UpdateAccountBalance s.accounts fromId
      (fromAccount.balanceAvailable - amount) fromAccount.balanceHold) toId
      (toAccount.balanceAvailable + amount) toAccount.balanceHold) =
      holdView (UpdateAccountBalance s.accounts fromId
        (fromAccount.balanceAvailable - amount) fromAccount.balanceHold) :=
    holdView_update _ _ _ _ hh2'
  exact step2.trans step1

/-- Two ledger states with equal `holdView`s have equally-`Nodup`
account ids. -/
theorem nodup_of_holdView_eq (l l' : List Account) (h : holdView l' = holdView l)
    (hnd : (l.map Account.id).Nodup) : (l'.map Account.id).Nodup := by
  rw [← holdView_ids, h, holdView_ids]
  exact hnd

/-- Claim C4 (amended): settling a trade moves the quote and the base
amounts between the parties' *available* balances only, in two
independent single-currency transfers; no account's hold balance is
ever reduced (or otherwise changed) by settlement, whatever the trade
and state — and a leg whose payer lacks sufficient *available* funds
fails even if the held funds would cover it (see the counterexample
run, where the full holds survive a successful settlement). -/
theorem processTrade_preserves_holds :
    ∀ (s : LedgerState) (jid tid : Nat) (t : Trade),
      (s.accounts.map Account.id).Nodup →
      holdView ((processTrade s jid tid t).1.1.accounts) = holdView s.accounts := by
  intro s jid tid t hnd
  simp only [processTrade]
  split
  · rfl
  split
  · rfl
  split
  · rfl
  split
  · rfl
  split
  · -- buy branch
    split
    · rfl
    · rename_i s1 h1
      have hv1 := TransferFunds_preserves_holds _ _ _ _ _ _ _ _ _ hnd h1
      split
      · exact hv1
      · rename_i s2 h2
        have hnd1 := nodup_of_holdView_eq s.accounts s1.accounts hv1 hnd
        have hv2 := TransferFunds_preserves_holds _ _ _ _ _ _ _ _ _ hnd1 h2
        exact hv2.trans hv1
  · -- sell branch
    split
    · rfl
    · rename_i s1 h1
      have hv1 := TransferFunds_preserves_holds _ _ _ _ _ _ _ _ _ hnd h1
      split
      · exact hv1
      · rename_i s2 h2
        have hnd1 := nodup_of_holdView_eq s.accounts s1.accounts hv1 hnd
        have hv2 := TransferFunds_preserves_holds _ _ _ _ _ _ _ _ _ hnd1 h2
        exact hv2.trans hv1

/-- Witness for `processTrade_preserves_holds` on the concrete C4
state. -/
theorem processTrade_preserves_holds_witness :
    (c4Accounts.map Account.id).Nodup ∧
    holdView ((processTrade ⟨c4Accounts, []⟩ 0 0 c4Trade).1.1.accounts) =
      holdView c4Accounts :=
  ⟨by decide, processTrade_preserves_holds ⟨c4Accounts, []⟩ 0 0 c4Trade (by decide)⟩

/-- Claim C4 (counterexample): the trade — taker 1 buys 5 BTC at 100
from maker 2 — settles successfully (both transfers pass), yet the
taker's 500 USD hold and the maker's 5 BTC hold, the portions the claim
says are released within the settlement, are exactly as before: holds
are `[500, 0, 0, 5]` both before and after. -/
theorem processTrade_never_touches_holds_cex :
    (processTrade ⟨c4Accounts, []⟩ 0 0 c4Trade).2 = none ∧
    (processTrade ⟨c4Accounts, []⟩ 0 0 c4Trade).1.1.accounts.map Account.balanceHold =
      [500, 0, 0, 5] ∧
    c4Accounts.map Account.balanceHold = [500, 0, 0, 5] ∧
    c4Trade.price * c4Trade.qty = 500 ∧ c4Trade.qty = 5 ∧
    (500 : Money) ≠ 0 ∧ (5 : Money) ≠ 0 := by
  with_unfolding_all decide

/-- Claim C9: with a record stored under `(user, key)`, a request whose
fingerprint matches is answered by replaying the stored response code
and body — for *every* wrapped operation `op`, which is therefore never
executed — with the state unchanged; and a request whose fingerprint
differs is answered 409 ("Idempotency key mismatch"), again for every
`op` and with the state unchanged. -/
theorem createOrderHandler_replay_or_mismatch :
    ∀ (op : EngineState → EngineState × Except String (List Nat)) (hs : HandlerState)
      (uid : Nat) (key : String) (body : List Nat) (iter : List (String × String))
      (r : IdempotencyKey),
      key ≠ "" → GetIdempotencyKey hs.idem uid key = some r →
      ((GenerateFingerprint body iter = r.requestFingerprint →
          createOrderHandler op hs uid key body iter =
            (⟨r.responseCode, r.responseBody⟩, hs)) ∧
       (GenerateFingerprint body iter ≠ r.requestFingerprint →
          createOrderHandler op hs uid key body iter =
            (⟨409, asciiBytes "Idempotency key mismatch"⟩, hs))) := by
  intro op hs uid key body iter r hkey hlookup
  constructor
  · intro hfp
    simp [createOrderHandler, CheckIdempotency, hlookup, if_neg hkey, hfp]
  · intro hfp
    have hne : r.requestFingerprint ≠ GenerateFingerprint body iter := fun hc => hfp hc.symm
    simp [createOrderHandler, CheckIdempotency, hlookup, if_neg hkey, hne]

/-- Witness for `createOrderHandler_replay_or_mismatch` on the concrete
C9 store. -/
theorem createOrderHandler_replay_or_mismatch_witness :
    ("k" : String) ≠ "" ∧ GetIdempotencyKey c9Hs.idem 1 "k" = some c9Rec ∧
    ((GenerateFingerprint [66] [] = c9Rec.requestFingerprint →
        createOrderHandler (fun e => (e, .error "boom")) c9Hs 1 "k" [66] [] =
          (⟨c9Rec.responseCode, c9Rec.responseBody⟩, c9Hs)) ∧
     (GenerateFingerprint [66] [] ≠ c9Rec.requestFingerprint →
        createOrderHandler (fun e => (e, .error "boom")) c9Hs 1 "k" [66] [] =
          (⟨409, asciiBytes "Idempotency key mismatch"⟩, c9Hs))) :=
  ⟨by decide, by decide,
   createOrderHandler_replay_or_mismatch (fun e => (e, .error "boom")) c9Hs 1 "k" [66] []
     c9Rec (by decide) (by decide)⟩

/-- The data string hashed by `GenerateFingerprint` depends on the
header iteration only through its critical
(`Authorization`/`Content-Type`) subsequence. -/
theorem fingerprint_data_filter :
    ∀ (iter : List (String × String)) (d : List Nat),
      iter.foldl (fun d kv =>
        if kv.1 = "Authorization" ∨ kv.1 = "Content-Type" then
          d ++ asciiBytes kv.1 ++ asciiBytes ":" ++ asciiBytes kv.2
        else d) d =
      (criticalHeaders iter).foldl (fun d kv =>
        d ++ asciiBytes kv.1 ++ asciiBytes ":" ++ asciiBytes kv.2) d := by
  intro iter
  induction iter with
  | nil => intro d; rfl
  | cons kv rest ih =>
    intro d
    by_cases hc : kv.1 = "Authorization" ∨ kv.1 = "Content-Type"
    · simp only [List.foldl_cons, if_pos hc, criticalHeaders, List.filter_cons,
        decide_eq_true hc]
      exact ih _
    · simp only [List.foldl_cons, if_neg hc, criticalHeaders, List.filter_cons,
        decide_eq_false hc]
      exact ih d

/-- Claim C10 (amended): the fingerprint reads nothing but the body and
the `Authorization` / `Content-Type` entries, in the order the header
map happens to be iterated: any two calls whose critical-header
subsequences coincide — in particular, calls differing only in other
headers — produce equal fingerprints.  (When both critical headers are
present the iteration order is not determined by the header values, so
equal inputs can still produce different fingerprints: see the
counterexample.) -/
theorem GenerateFingerprint_reads_only_critical :
    ∀ (body : List Nat) (it1 it2 : List (String × String)),
      criticalHeaders it1 = criticalHeaders it2 →
      GenerateFingerprint body it1 = GenerateFingerprint body it2 := by
  intro body it1 it2 h
  simp only [GenerateFingerprint]
  rw [fingerprint_data_filter it1 body, fingerprint_data_filter it2 body, h]

/-- Witness for `GenerateFingerprint_reads_only_critical`: changing,
reordering and removing non-critical headers leaves the fingerprint
unchanged. -/
theorem GenerateFingerprint_reads_only_critical_witness :
    criticalHeaders c10It3 = criticalHeaders c10It4 ∧
    GenerateFingerprint [66] c10It3 = GenerateFingerprint [66] c10It4 :=
  ⟨by decide, GenerateFingerprint_reads_only_critical [66] c10It3 c10It4 (by decide)⟩

/-- Claim C10 (counterexample): the two iteration orders of the *same*
header map (a permutation, same body, same `Authorization` and
`Content-Type` values) hash the two critical headers in opposite
concatenation order and yield different fingerprints — Go map iteration
order is unspecified, so `GenerateFingerprint` is not a function of the
body and the two header values. -/
theorem GenerateFingerprint_order_dependent :
    c10It1.Perm c10It2 ∧
    GenerateFingerprint [66] c10It1 ≠ GenerateFingerprint [66] c10It2 := by
  decide

/-- An in-range `getD` is a member. -/
theorem list_getD_mem {α : Type} (l : List α) (i : Nat) (d : α) (h : i < l.length) :
    l.getD i d ∈ l := by
  rw [List.getD_eq_getElem?_getD, List.getElem?_eq_getElem h]
  exact List.getElem_mem h

/-- `shiftDown` keeps the backing array's length. -/
theorem shiftDown_length (l : List Nat) (i n : Nat) : (shiftDown l i n).length = l.length := by
  simp [shiftDown]

/-- `shiftDown` only rearranges entries of the array (for an in-range
live region). -/
theorem shiftDown_subset (l : List Nat) (i n : Nat) (hn : n ≤ l.length) :
    ∀ x ∈ shiftDown l i n, x ∈ l := by
  intro x hx
  simp only [shiftDown, List.mem_map, List.mem_range] at hx
  rcases hx with ⟨j, hj, rfl⟩
  by_cases hc : i ≤ j ∧ j + 1 < n
  · rw [if_pos hc]
    exact list_getD_mem l (j + 1) 0 (Nat.lt_of_lt_of_le hc.2 hn)
  · rw [if_neg hc]
    exact list_getD_mem l j 0 hj

/-- `staticPart` forgets only `filledQty` and `status`. -/
theorem staticPart_userId (o : BookOrder) : (staticPart o).userId = o.userId := rfl

/-- Equal static projections give equal owners at every position. -/
theorem map_staticPart_userId (l1 l2 : List BookOrder)
    (h : l1.map staticPart = l2.map staticPart) (x : Nat) :
    (l1.getD x default).userId = (l2.getD x default).userId := by
  have h1 : (l1.map staticPart).get? x = (l2.map staticPart).get? x := by rw [h]
  rw [List.get?_map, List.get?_map] at h1
  rw [List.getD_eq_get?, List.getD_eq_get?]
  cases he1 : l1.get? x with
  | none =>
    rw [he1] at h1
    cases he2 : l2.get? x with
    | none => rfl
    | some b => rw [he2] at h1; exact absurd h1 (by simp)
  | some a =>
    rw [he1] at h1
    cases he2 : l2.get? x with
    | none => rw [he2] at h1; exact absurd h1 (by simp)
    | some b =>
      rw [he2] at h1
      simp only [Option.map_some', Option.some.injEq] at h1
      simp only [Option.getD_some]
      calc a.userId = (staticPart a).userId := rfl
        _ = (staticPart b).userId := by rw [h1]
        _ = b.userId := rfl

/-- Overwriting a slot with an order of the same static part preserves
the whole static projection. -/
theorem map_staticPart_set (l : List BookOrder) (i : Nat) (o' : BookOrder)
    (h : staticPart o' = staticPart (l.getD i default)) :
    (l.set i o').map staticPart = l.map staticPart := by
  induction l generalizing i with
  | nil => rfl
  | cons b rest ih =>
    cases i with
    | zero =>
      simp only [List.set, List.map_cons, List.getD] at h ⊢
      rw [show staticPart o' = staticPart b by simpa using h]
    | succ n =>
      simp only [List.set, List.map_cons]
      rw [ih n (by simpa [List.getD] using h)]

/-- When the level-price guard does not fire, a limit taker's bound
holds for the level price. -/
theorem priceBreaks_false_bounds (taker : BookOrder) (lp : Money)
    (h : priceBreaks taker lp = false) :
    ∀ p, taker.type = .limit → taker.price = some p →
      (taker.side = .buy → lp ≤ p) ∧ (taker.side = .sell → p ≤ lp) := by
  intro p htype hprice
  simp only [priceBreaks, htype, hprice, decide_True, Bool.true_and] at h
  constructor
  · intro hside
    rw [if_pos hside] at h
    exact not_lt.mp (of_decide_eq_false h)
  · intro hside
    rw [if_neg (by rw [hside]; exact fun hc => OrderSide.noConfusion hc)] at h
    exact not_lt.mp (of_decide_eq_false h)

/-- Record updates of the mutable fields do not change the static
part. -/
theorem staticPart_update (o : BookOrder) (fq : Money) (stt : OrderStatus) :
    staticPart { o with filledQty := fq, status := stt } = staticPart o := rfl

/-- Specification of `MatchOrder`'s inner loop: it only rearranges the
backing array, never changes an order's static part, and every trade it
appends carries the level price, a maker resting on the original side,
and (via `hgood`) the taker's limit bound. -/
theorem matchLevelLoop_spec (sideZ : BookSide) (ostoreZ : List BookOrder) (taker : BookOrder)
    (lprice : Money)
    (hgood : ∀ p, taker.type = .limit → taker.price = some p →
      (taker.side = .buy → lprice ≤ p) ∧ (taker.side = .sell → p ≤ lprice)) :
    ∀ (steps i : Nat) (s sOut : InnerState),
      matchLevelLoop taker.symbol taker.side taker.userId lprice steps i s = .ok sOut →
      steps + i ≤ s.backing.length →
      s.liveLen ≤ s.backing.length →
      (∀ x ∈ s.backing, ∃ o, RestingIn sideZ ostoreZ o ∧ o.price = some lprice ∧
        (s.ostore.getD x default).userId = o.userId) →
      (∀ t ∈ s.trades, GoodTrade sideZ ostoreZ taker t) →
      ((∀ x ∈ sOut.backing, x ∈ s.backing) ∧
       sOut.ostore.map staticPart = s.ostore.map staticPart ∧
       (∀ t ∈ sOut.trades, GoodTrade sideZ ostoreZ taker t)) := by
  intro steps
  induction steps with
  | zero =>
    intro i s sOut h _ _ _ htr
    cases h
    exact ⟨fun x hx => hx, rfl, htr⟩
  | succ n ih =>
    intro i s sOut h hlen hlive hback htr
    simp only [matchLevelLoop] at h
    split at h
    · cases h
      exact ⟨fun x hx => hx, rfl, htr⟩
    · split at h
      · -- drained resting order: continue
        exact ih (i + 1) s sOut h (by omega) hlive hback htr
      · rename_i hrem horem
        have hi : i < s.backing.length := by omega
        obtain ⟨o0, hr0, hp0, hu0⟩ := hback _ (list_getD_mem s.backing i 0 hi)
        split at h
        · rename_i hfull
          split at h
          · exact InnerOut.noConfusion h
          · rename_i hpan
            -- full fill: slot i removed in place, recurse on the shifted array
            have hnew := ih (i + 1) _ sOut h
              (by simp only [shiftDown_length]; omega)
              (by simp only [shiftDown_length]; omega)
              (by
                intro x hx
                obtain ⟨o1, hr1, hp1, hu1⟩ := hback x (shiftDown_subset _ _ _ hlive x hx)
                refine ⟨o1, hr1, hp1, ?_⟩
                rw [map_staticPart_userId _ _ (map_staticPart_set _ _ _ (by rfl)) x]
                exact hu1)
              (by
                intro t ht
                rcases List.mem_append.mp ht with hold | hsing
                · exact htr t hold
                · cases List.mem_singleton.mp hsing
                  exact ⟨⟨o0, hr0, hp0, hu0.symm⟩, hgood⟩)
            exact ⟨fun x hx => shiftDown_subset _ _ _ hlive x (hnew.1 x hx),
              hnew.2.1.trans (map_staticPart_set _ _ _ (by rfl)), hnew.2.2⟩
        · rename_i hfull
          -- partial fill: same array, the resting order keeps its slot
          have hnew := ih (i + 1) _ sOut h
            (by show n + (i + 1) ≤ s.backing.length; omega) hlive
            (by
              intro x hx
              obtain ⟨o1, hr1, hp1, hu1⟩ := hback x hx
              refine ⟨o1, hr1, hp1, ?_⟩
              rw [map_staticPart_userId _ _ (map_staticPart_set _ _ _ (by rfl)) x]
              exact hu1)
            (by
              intro t ht
              rcases List.mem_append.mp ht with hold | hsing
              · exact htr t hold
              · cases List.mem_singleton.mp hsing
                exact ⟨⟨o0, hr0, hp0, hu0.symm⟩, hgood⟩)
          exact ⟨hnew.1, hnew.2.1.trans (map_staticPart_set _ _ _ (by rfl)), hnew.2.2⟩

/-- `SideRefines` is reflexive. -/
theorem sideRefines_refl (bs : BookSide) : SideRefines bs bs :=
  fun _ lvl hk => ⟨lvl, hk, rfl, fun _ hx => hx⟩

/-- In-range `get?` returns the `getD` value. -/
theorem get?_eq_getD_of_lt {α : Type} [Inhabited α] (l : List α) (k : Nat)
    (h : k < l.length) : l.get? k = some (l.getD k default) := by
  rw [List.getD_eq_get?]
  cases hg : l.get? k with
  | none => exact absurd (List.get?_eq_none.mp hg) (by omega)
  | some v => rfl

/-- Replacing one level's queue by a sub-collection of itself preserves
refinement. -/
theorem sideRefines_writeback (sZ bs : BookSide) (lidx : Nat) (orders' : List Nat)
    (levels' : List (Money × Nat)) (hp' : List Nat)
    (href : SideRefines sZ bs)
    (hsub : ∀ x ∈ orders', x ∈ (bs.lstore.getD lidx default).orders) :
    SideRefines sZ ⟨bs.lstore.set lidx { bs.lstore.getD lidx default with orders := orders' },
      levels', hp'⟩ := by
  intro k lvl hk
  by_cases hkl : k = lidx
  · subst hkl
    by_cases hlt : k < bs.lstore.length
    · have hv := get?_eq_getD_of_lt bs.lstore k hlt
      obtain ⟨lvlZ, hZ, hpz, hsz⟩ := href k _ hv
      rw [show (⟨bs.lstore.set k { bs.lstore.getD k default with orders := orders' },
          levels', hp'⟩ : BookSide).lstore =
          bs.lstore.set k { bs.lstore.getD k default with orders := orders' } from rfl] at hk
      rw [List.get?_set_eq_of_lt _ hlt] at hk
      cases hk
      exact ⟨lvlZ, hZ, hpz, fun x hx => hsz x (hsub x hx)⟩
    · rw [show (⟨bs.lstore.set k { bs.lstore.getD k default with orders := orders' },
          levels', hp'⟩ : BookSide).lstore =
          bs.lstore.set k { bs.lstore.getD k default with orders := orders' } from rfl] at hk
      rw [List.get?_eq_none.mpr (by simp; omega)] at hk
      exact Option.noConfusion hk
  · rw [show (⟨bs.lstore.set lidx { bs.lstore.getD lidx default with orders := orders' },
        levels', hp'⟩ : BookSide).lstore =
        bs.lstore.set lidx { bs.lstore.getD lidx default with orders := orders' } from rfl] at hk
    rw [List.get?_set_ne _ _ (Ne.symm hkl)] at hk
    exact href k lvl hk

/-- `RemoveOrder`'s walk only erases queue entries, so it preserves
refinement. -/
theorem removeOrderGo_refines (bs : BookSide) (ostore : List BookOrder) (tid : Nat)
    (sZ : BookSide) (href : SideRefines sZ bs) :
    ∀ entries, SideRefines sZ (removeOrderGo bs ostore tid entries).2 := by
  intro entries
  induction entries with
  | nil => exact href
  | cons e rest ih =>
    obtain ⟨p, lidx⟩ := e
    simp only [removeOrderGo]
    split
    · exact ih
    · exact sideRefines_writeback sZ bs lidx _ _ _ href
        (fun x hx => List.eraseIdx_subset _ _ hx)

/-- Specification of `MatchOrder`'s outer loop: starting from a state
whose side refines the original side of a well-formed book, every trade
in a finished run satisfies the C8 properties. -/
theorem matchLoop_spec (sideZ : BookSide) (ostoreZ : List BookOrder) (taker : BookOrder)
    (hwf : WFSide sideZ ostoreZ) :
    ∀ (fuel : Nat) (s sOut : MatchState),
      matchLoop taker fuel s = some (.ok sOut) →
      SideRefines sideZ s.side →
      s.ostore.map staticPart = ostoreZ.map staticPart →
      (∀ t ∈ s.trades, GoodTrade sideZ ostoreZ taker t) →
      ∀ t ∈ sOut.trades, GoodTrade sideZ ostoreZ taker t := by
  intro fuel
  induction fuel with
  | zero =>
    intro s sOut h
    exact absurd h (by simp [matchLoop])
  | succ n ih =>
    intro s sOut h href hstat htr
    simp only [matchLoop] at h
    split at h
    · simp only [Option.some.injEq, MatchLoopOut.ok.injEq] at h
      subst h
      exact htr
    · split at h
      · simp only [Option.some.injEq, MatchLoopOut.ok.injEq] at h
        subst h
        exact htr
      · rename_i lidx hbest
        split at h
        · simp only [Option.some.injEq, MatchLoopOut.ok.injEq] at h
          subst h
          exact htr
        · rename_i hbreak
          split at h
          · exact absurd h (by simp)
          · rename_i is hloop
            have hb : priceBreaks taker (s.side.lstore.getD lidx default).price = false := by
              cases hpb : priceBreaks taker (s.side.lstore.getD lidx default).price with
              | false => rfl
              | true => exact absurd hpb hbreak
            have hgood := priceBreaks_false_bounds taker
              (s.side.lstore.getD lidx default).price hb
            have hback : ∀ x ∈ (s.side.lstore.getD lidx default).orders,
                ∃ o, RestingIn sideZ ostoreZ o ∧
                  o.price = some (s.side.lstore.getD lidx default).price ∧
                  (s.ostore.getD x default).userId = o.userId := by
              intro x hx
              by_cases hlt : lidx < s.side.lstore.length
              · have hv := get?_eq_getD_of_lt s.side.lstore lidx hlt
                obtain ⟨lvlZ, hZ, hpz, hsz⟩ := href lidx _ hv
                have hxz := hsz x hx
                have hmemZ := List.get?_mem hZ
                obtain ⟨hxlen, hxprice⟩ := hwf lvlZ hmemZ x hxz
                refine ⟨ostoreZ.getD x default, ⟨lvlZ, hmemZ, x, hxz, rfl⟩, ?_, ?_⟩
                · rw [hxprice, hpz]
                · exact map_staticPart_userId _ _ hstat x
              · have hdef : s.side.lstore.getD lidx default = default := by
                  rw [List.getD_eq_get?, List.get?_eq_none.mpr (by omega)]
                  rfl
                rw [hdef] at hx
                exact absurd hx (List.not_mem_nil x)
            have hinner := matchLevelLoop_spec sideZ ostoreZ taker
              (s.side.lstore.getD lidx default).price hgood
              (s.side.lstore.getD lidx default).orders.length 0
              ⟨(s.side.lstore.getD lidx default).orders,
               (s.side.lstore.getD lidx default).orders.length,
               s.ostore, s.takerFilled, s.remaining, s.trades⟩ is hloop
              (by show (s.side.lstore.getD lidx default).orders.length + 0 ≤
                (s.side.lstore.getD lidx default).orders.length; omega)
              (by exact Nat.le_refl _) hback htr
            have href1 : SideRefines sideZ
                ⟨s.side.lstore.set lidx
                  { s.side.lstore.getD lidx default with
                    orders := is.backing.take is.liveLen },
                 s.side.levels, s.side.heap⟩ :=
              sideRefines_writeback sideZ s.side lidx _ _ _ href
                (fun x hx => hinner.1 x (List.take_subset _ _ hx))
            split at h
            · exact ih _ sOut h
                (removeOrderGo_refines _ is.ostore 0 sideZ href1 _)
                (hinner.2.1.trans hstat) hinner.2.2
            · exact ih _ sOut h href1 (hinner.2.1.trans hstat) hinner.2.2

/-- Claim C8: every trade a finished `MatchOrder` run emits carries the
price and owner of an order resting on the matched (opposite) side of a
well-formed book — fills happen at the maker's price — and for a LIMIT
taker with a price, a BUY taker never pays above its limit and a SELL
taker never receives below it. -/
theorem MatchOrder_maker_price_and_limit_bounds :
    ∀ (fuel : Nat) (ob : OrderBook) (taker : BookOrder),
      WFSide (oppositeSide ob taker) ob.ostore →
      ∀ t ∈ tradesOf (MatchOrder fuel ob taker),
        (∃ o, RestingIn (oppositeSide ob taker) ob.ostore o ∧
          o.price = some t.price ∧ o.userId = t.makerId) ∧
        (∀ p, taker.type = .limit → taker.price = some p →
          (taker.side = .buy → t.price ≤ p) ∧ (taker.side = .sell → p ≤ t.price)) := by
  intro fuel ob taker hwf t ht
  simp only [MatchOrder, tradesOf] at ht
  cases hml : matchLoop taker fuel
      ⟨(if taker.side = OrderSide.buy then ob.asks else ob.bids), ob.ostore,
       taker.filledQty, taker.qty - taker.filledQty, []⟩ with
  | none =>
    rw [hml] at ht
    exact absurd ht (by simp)
  | some out =>
    cases out with
    | crashed =>
      rw [hml] at ht
      exact absurd ht (by simp)
    | ok sOut =>
      rw [hml] at ht
      simp only [] at ht
      exact matchLoop_spec (oppositeSide ob taker) ob.ostore taker hwf fuel _ sOut hml
        (sideRefines_refl (oppositeSide ob taker)) rfl
        (fun t' ht' => absurd ht' (List.not_mem_nil t')) t ht

/-- Witness for `MatchOrder_maker_price_and_limit_bounds` on a one-ask
book and a limit buy at 120. -/
theorem MatchOrder_maker_price_and_limit_bounds_witness :
    WFSide (oppositeSide c8Book c8Taker) c8Book.ostore ∧
    (∀ t ∈ tradesOf (MatchOrder 3 c8Book c8Taker),
      (∃ o, RestingIn (oppositeSide c8Book c8Taker) c8Book.ostore o ∧
        o.price = some t.price ∧ o.userId = t.makerId) ∧
      (∀ p, c8Taker.type = .limit → c8Taker.price = some p →
        (c8Taker.side = .buy → t.price ≤ p) ∧ (c8Taker.side = .sell → p ≤ t.price))) :=
  ⟨by unfold WFSide; with_unfolding_all decide,
   MatchOrder_maker_price_and_limit_bounds 3 c8Book c8Taker
     (by unfold WFSide; with_unfolding_all decide)⟩
